import Mathlib

/-!
Verification of the experiment-control-plane views (`api/experiments/views.py`)
of the polyaxon repository, against its natural-language specification.

The Python views are embedded shallowly: each request handler becomes a pure
Lean function from its resolved inputs (request data, the target experiment,
the relevant store state) to the list of side-effecting actions it performs
(audit records, task dispatches, row creations) together with its outcome.
Collaborator modules that are not part of the analysed sources are modelled
from the specification and marked as such in their doc comments.
-/

namespace Polyaxon

/-- Modelled from the spec: the experiment lifecycle constants
(`constants.experiments.ExperimentLifeCycle`) are not among the analysed
sources; the views import `SCHEDULED`, `STARTING` and `RUNNING` from it, and
the spec names an operationally live subset scheduled/starting/running plus
the terminal states succeeded/failed/stopped. -/
inductive ExperimentLifeCycle
  | created
  | resuming
  | building
  | scheduled
  | starting
  | running
  | succeeded
  | failed
  | stopped
  | unknown
  deriving DecidableEq, Repr

/-- A project row, projected to the fields the analysed views read. -/
structure Project where
  id : Nat
  uniqueName : String
  uuidHex : String
  deriving DecidableEq, Repr

/-- An experiment-group row, projected to the fields the analysed views read. -/
structure Group where
  id : Nat
  projectId : Nat
  uniqueName : String
  uuidHex : String
  deriving DecidableEq, Repr

/-- A configuration blob (a JSON-object-like mapping), embedded as an
association list from keys to values; lookup takes the first binding. -/
abbrev Config := List (String × String)

/-- Lookup of a key in a configuration, first binding wins. -/
def lookupConfig (c : Config) (k : String) : Option String :=
  (c.find? (fun p => p.1 == k)).map (·.2)

/-- Whether a configuration binds a key. -/
def hasKey (c : Config) (k : String) : Bool :=
  c.any (fun p => p.1 == k)

/-- Dict-update of `c1` by `c2`: keys of `c2` override keys of `c1`. -/
def mergeTwo (c1 c2 : Config) : Config :=
  c1.filter (fun p => !hasKey c2 p.1) ++ c2

/-- Left fold of dict-update over an ordered list of configurations, so that
later entries override earlier ones. -/
def mergeConfigs (cs : List Config) : Config :=
  cs.foldl mergeTwo []

/-- An experiment row, projected to the fields the analysed views read:
identity, owner, owning project, optional owning group, unique name and uuid,
the raw specification blob (`config`), its parsed form
(`specification.parsed_data`) and the derived `last_status`. -/
structure Experiment where
  id : Nat
  userId : Nat
  project : Project
  experimentGroup : Option Group
  uniqueName : String
  uuidHex : String
  config : Config
  parsedSpec : Config
  lastStatus : ExperimentLifeCycle
  deriving DecidableEq, Repr

/-- The event types recorded by the analysed views (the
`event_manager.events.experiment` constants are imported by the views; only
the ones the claims touch are listed). -/
inductive EventType
  | experimentCreated
  | experimentRestartedTriggered
  | experimentResumedTriggered
  | experimentCopiedTriggered
  | experimentStoppedTriggered
  deriving DecidableEq, Repr

/-- Python's built-in `sorted` on a list of strings, ascending. -/
def pySorted (xs : List String) : List String :=
  xs.insertionSort (· ≤ ·)

/-- The scope comparison performed by `ExperimentScopeTokenView.post`:
the request passes the scope check exactly when
`sorted(user.scope) != sorted(scope)` is false, i.e. when the presented and
stored scope lists are equal once sorted. -/
def validate (presented stored : List String) : Bool :=
  pySorted presented == pySorted stored

/-- Modelled from the spec: the durable-credential store behind
`Token.objects.get_or_create(user=...)` (the token model is an external
collaborator); an explicit idempotent upsert keyed by user id: look up by
user; if absent, create one fresh entry; return the single resulting
credential and whether it was created. -/
def getOrCreateToken (tokens : List (Nat × String)) (userId : Nat)
    (freshKey : String) : (String × Bool) × List (Nat × String) :=
  match tokens.find? (fun p => p.1 == userId) with
  | some p => ((p.2, false), tokens)
  | none => ((freshKey, true), tokens ++ [(userId, freshKey)])

/-- Outcome of the scope-token exchange endpoint. -/
inductive ScopeTokenOutcome
  | forbidden
  | ok (tokenKey : String)
  deriving DecidableEq, Repr

/-- Embedding of `ExperimentScopeTokenView.post`.

Inputs: `getScope` is the stored-grant lookup
(`RedisEphemeralTokens.get_scope(user, model, object_id)`, an external store
queried with the experiment owner's id, the literal model name
`"experiment"`, and the experiment id); `userScope` is the ephemeral caller's
`user.scope` (`none` embeds Python `None`); `tokens` is the durable-token
store and `freshKey` the key a newly created token would get.

Steps, in source order: reject when `user.scope is None`; reject when the
experiment's `last_status` is not one of scheduled/starting/running; reject
when the sorted presented scope differs from the sorted stored scope;
otherwise get-or-create the durable token of the experiment's user and
return its key. Returns the outcome and the resulting token store. -/
def scopeTokenPost (getScope : Nat → String → Nat → List String)
    (userScope : Option (List String)) (experiment : Experiment)
    (tokens : List (Nat × String)) (freshKey : String) :
    ScopeTokenOutcome × List (Nat × String) :=
  match userScope with
  | none => (.forbidden, tokens)
  | some presented =>
    if experiment.lastStatus ∉ [ExperimentLifeCycle.scheduled,
                                ExperimentLifeCycle.starting,
                                ExperimentLifeCycle.running] then
      (.forbidden, tokens)
    else
      let scope := getScope experiment.userId "experiment" experiment.id
      if pySorted presented ≠ pySorted scope then
        (.forbidden, tokens)
      else
        let ((key, _), tokens') := getOrCreateToken tokens experiment.userId freshKey
        (.ok key, tokens')

/-- A `ttl` value as read from `request.data.get(RedisTTL.TTL_KEY)`:
absent, a JSON integer, or a JSON string. -/
inductive TTLInput
  | absent
  | int (n : Int)
  | str (s : String)
  deriving DecidableEq, Repr

/-- Python truthiness of a ttl value: `None`, `0` and `""` are falsy. -/
def ttlTruthy : TTLInput → Bool
  | .absent => false
  | .int n => n != 0
  | .str s => s != ""

/-- Modelled from the spec: `RedisTTL.validate_ttl` is not among the analysed
sources; per the error-handling design a malformed ttl (non-integer) is a
`ValidationError` with message "ttl must be an integer.", so the validator
coerces its input to an integer or fails. -/
def validate_ttl : TTLInput → Except String Int
  | .absent => .error "ttl must be an integer."
  | .int n => .ok n
  | .str s =>
    match s.toInt? with
    | some n => .ok n
    | none => .error "ttl must be an integer."

/-- The ttl prologue shared by `ProjectExperimentListView.perform_create` and
`ExperimentCloneView.post`: `ttl = request.data.get(RedisTTL.TTL_KEY)`
followed by `if ttl: ttl = RedisTTL.validate_ttl(ttl)` with `ValueError`
re-raised as a `ValidationError`. A falsy ttl is left as-is (embedded as
`none`); a truthy one is validated and the resulting integer kept. -/
def resolveTTL (ttlRaw : TTLInput) : Except String (Option Int) :=
  if ttlTruthy ttlRaw then (validate_ttl ttlRaw).map some
  else .ok none

/-- The error outcomes the analysed handlers surface to the caller. -/
inductive RestError
  | validationError (msg : String)
  | notFound
  deriving DecidableEq, Repr

/-- The `stop` task payload built by `ExperimentStopView.post`: every field
is resolved before dispatch, the group fields being `None` when the
experiment has no group. -/
structure StopPayload where
  projectName : String
  projectUuid : String
  experimentName : String
  experimentUuid : String
  experimentGroupName : Option String
  experimentGroupUuid : Option String
  specification : Config
  updateStatus : Bool
  deriving DecidableEq, Repr

/-- The side-effecting actions the analysed handlers perform, in the order
they perform them: audit records, experiment creations (via the clone
strategies or the create serializer), ttl stores, task dispatches, and
synchronous metric-row creations. -/
inductive Action
  | record (eventType : EventType) (instanceId : Nat)
  | createExperiment (id : Nat) (config : Option Config)
      (declarations : Option Config) (updateCodeReference : Bool)
      (description : Option String)
  | createFromSerializer (id : Nat) (userId : Nat) (projectId : Nat)
  | setTTL (experimentId : Nat) (value : Int)
  | sendSetMetrics (experimentId : Nat) (data : List Config)
  | sendStop (payload : StopPayload)
  | createMetricRow (experimentId : Nat) (data : Config)
  deriving DecidableEq, Repr

/-- Whether an action is an experiment creation. -/
def Action.isCreate : Action → Bool
  | .createExperiment .. => true
  | .createFromSerializer .. => true
  | _ => false

/-- Whether an action is a ttl store. -/
def Action.isSetTTL : Action → Bool
  | .setTTL .. => true
  | _ => false

/-- Result of the specification validator: the parsed (merged) data and the
declarations extracted from it. -/
structure SpecResult where
  parsedData : Config
  declarations : Config
  deriving DecidableEq, Repr

/-- Environment for the parts of specification validation that the analysed
sources do not contain: which merged configurations are valid, and how
declarations are extracted from a merged configuration. -/
structure SpecEnv where
  isValid : Config → Bool
  extractDeclarations : Config → Config

/-- Modelled from the spec: `libs.spec_validation.validate_experiment_spec_config`
is not among the analysed sources; per the derivation-engine design it
validates an ordered list of configurations, producing a specification whose
parsed data merges them with later entries overriding earlier keys, and a
validation failure surfaces as a client-visible configuration error. -/
def validate_experiment_spec_config (env : SpecEnv) (configs : List Config) :
    Except String SpecResult :=
  let merged := mergeConfigs configs
  if env.isValid merged then
    .ok { parsedData := merged, declarations := env.extractDeclarations merged }
  else
    .error "invalid specification configuration"

/-- The clone request body, with `update_code` already taken through
`to_bool` (its own malformed-value error path is outside the claims). Each
field is `none` when the corresponding key is absent from `request.data`. -/
structure CloneRequest where
  ttl : TTLInput
  config : Option Config
  updateCode : Option Bool
  description : Option String

/-- Embedding of `ExperimentCloneView.post` (shared by the restart, resume
and copy views, whose `clone` strategies create the new experiment from the
given arguments and whose `event_type` is the corresponding triggered
event).

Steps, in source order: read and (when truthy) validate the ttl; record
`event_type` against the source object; when `config` is supplied, validate
`[obj.specification.parsed_data, config]` through the specification
validator, failures surfacing as errors; read `update_code` and
`description`; create the new experiment via the clone strategy; finally,
when the ttl is truthy, store it against the new experiment's id. Returns
the performed actions and the outcome (the new experiment's id on
success). -/
def clonePost (env : SpecEnv) (eventType : EventType) (obj : Experiment)
    (req : CloneRequest) (newId : Nat) : List Action × Except RestError Nat :=
  match resolveTTL req.ttl with
  | .error e => ([], .error (.validationError e))
  | .ok ttlOpt =>
    let recorded := [Action.record eventType obj.id]
    let validated : Except String (Option Config × Option Config) :=
      match req.config with
      | none => .ok (none, none)
      | some overrideConfig =>
        (validate_experiment_spec_config env [obj.parsedSpec, overrideConfig]).map
          (fun s => (some s.parsedData, some s.declarations))
    match validated with
    | .error e => (recorded, .error (.validationError e))
    | .ok (config, declarations) =>
      let updateCodeReference := req.updateCode.getD false
      let created := recorded ++
        [Action.createExperiment newId config declarations updateCodeReference req.description]
      let final := created ++
        (match ttlOpt with
         | some n => if n != 0 then [Action.setTTL newId n] else []
         | none => [])
      (final, .ok newId)

/-- The metrics request body: a single record or a list of records
(`request.data` being a JSON object or a JSON array). -/
inductive MetricsPayload
  | single (m : Config)
  | list (ms : List Config)

/-- Embedding of `ExperimentMetricListView.create`: a list payload enqueues
one `EXPERIMENTS_SET_METRICS` task carrying the experiment id and the raw
list, creating no synchronous row; a single record goes through serializer
validation (`isValidMetric`, external to the analysed sources) and a
synchronous `ExperimentMetric` row creation. -/
def metricsCreate (isValidMetric : Config → Bool) (experimentId : Nat)
    (payload : MetricsPayload) : List Action × Except RestError Unit :=
  match payload with
  | .list ms => ([.sendSetMetrics experimentId ms], .ok ())
  | .single m =>
    if isValidMetric m then ([.createMetricRow experimentId m], .ok ())
    else ([], .error (.validationError "invalid metric"))

/-- Embedding of `ExperimentStopView.post`: record the stopped-triggered
event against the experiment, then dispatch one `EXPERIMENTS_STOP` task with
the fully resolved identifiers (group fields `None` when the experiment has
no group), the experiment's specification and `update_status = True`;
respond 200. -/
def stopPost (obj : Experiment) : List Action × Nat :=
  let group := obj.experimentGroup
  ([.record .experimentStoppedTriggered obj.id,
    .sendStop
      { projectName := obj.project.uniqueName
        projectUuid := obj.project.uuidHex
        experimentName := obj.uniqueName
        experimentUuid := obj.uuidHex
        experimentGroupName := group.map Group.uniqueName
        experimentGroupUuid := group.map Group.uuidHex
        specification := obj.config
        updateStatus := true }],
   200)

/-- Python truthiness of an optional string query parameter: absent (`None`)
and the empty string are falsy. -/
def pyTruthyStr : Option String → Bool
  | none => false
  | some s => s != ""

/-- Python truthiness of an optional integer request value: absent (`None`)
and `0` are falsy. -/
def pyTruthyNat : Option Nat → Bool
  | none => false
  | some n => n != 0

/-- Embedding of `ProjectExperimentListView.filter_queryset`. `independent`
is the `independent` query parameter already taken through `to_bool`;
`groupParam` is the raw `group` query parameter. In source order: raise a
`ValidationError` when `independent` and the group parameter are both
truthy; restrict to the project; when `independent` is truthy keep only
group-less experiments; when the group parameter is truthy resolve the group
in the project (404 when absent) and keep only its experiments. -/
def filterQueryset (independent : Bool) (groupParam : Option String)
    (project : Project) (groups : List Group) (qs : List Experiment) :
    Except RestError (List Experiment) :=
  if independent && pyTruthyStr groupParam then
    .error (.validationError
      "You cannot filter for independent experiments and group experiments at the same time.")
  else
    let inProject := qs.filter (fun e => e.project.id == project.id)
    let afterIndependent :=
      if independent then inProject.filter (fun e => e.experimentGroup.isNone)
      else inProject
    if pyTruthyStr groupParam then
      match groups.find? (fun g =>
          g.projectId == project.id && toString g.id == groupParam.getD "") with
      | none => .error .notFound
      | some g =>
        .ok (afterIndependent.filter (fun e =>
          (e.experimentGroup.map Group.id).getD 0 == g.id
            && e.experimentGroup.isSome))
    else
      .ok afterIndependent

/-- Embedding of `ProjectExperimentListView.perform_create`. In source
order: read and (when truthy) validate the ttl; when the `experiment_group`
value is truthy and no such group exists in the project, raise a
`ValidationError`; save the new experiment for the requesting user and
project; record the created event against it; finally, when the ttl is
truthy, store it against the new experiment's id. -/
def performCreate (ttlRaw : TTLInput) (groupRef : Option Nat)
    (project : Project) (groups : List Group) (userId newId : Nat) :
    List Action × Except RestError Nat :=
  match resolveTTL ttlRaw with
  | .error e => ([], .error (.validationError e))
  | .ok ttlOpt =>
    if pyTruthyNat groupRef
        && !(groups.any (fun g =>
              g.id == groupRef.getD 0 && g.projectId == project.id)) then
      ([], .error (.validationError "Received an invalid group."))
    else
      ([Action.createFromSerializer newId userId project.id,
        Action.record .experimentCreated newId] ++
       (match ttlOpt with
        | some n => if n != 0 then [Action.setTTL newId n] else []
        | none => []),
       .ok newId)

/-- A concrete project used to evaluate the handlers on closed inputs. -/
def sampleProject : Project :=
  { id := 1, uniqueName := "user/project", uuidHex := "p0" }

/-- A concrete group-less, running experiment used to evaluate the handlers
on closed inputs. -/
def sampleExperiment : Experiment :=
  { id := 5
    userId := 7
    project := sampleProject
    experimentGroup := none
    uniqueName := "user/project/5"
    uuidHex := "e0"
    config := [("version", "1")]
    parsedSpec := [("lr", "0.1")]
    lastStatus := .running }

/-- A concrete stopped experiment used to evaluate the handlers on closed
inputs. -/
def sampleStoppedExperiment : Experiment :=
  { sampleExperiment with id := 6, lastStatus := .stopped }

/-- A concrete specification-validation environment accepting every merged
configuration and extracting it unchanged, used to evaluate the handlers on
closed inputs. -/
def sampleSpecEnv : SpecEnv :=
  { isValid := fun _ => true, extractDeclarations := fun c => c }

/-- A concrete stored-grant lookup holding an explicit empty-scope grant for
every key, used to evaluate the handlers on closed inputs. -/
def emptyGetScope : Nat → String → Nat → List String :=
  fun _ _ _ => []

/-! Helper lemmas shared by several claims. -/

/-- The scope comparison passes exactly when the two lists are permutations
of each other: sorting is order-insensitive but multiplicity-sensitive. -/
theorem validate_eq_true_iff_perm (p s : List String) :
    validate p s = true ↔ p.Perm s := by
  unfold validate pySorted
  rw [beq_iff_eq]
  constructor
  · intro h
    exact (List.perm_insertionSort (· ≤ ·) p).symm.trans
      (h ▸ List.perm_insertionSort (· ≤ ·) s)
  · intro h
    exact List.eq_of_perm_of_sorted
      (((List.perm_insertionSort (· ≤ ·) p).trans h).trans
        (List.perm_insertionSort (· ≤ ·) s).symm)
      (List.sorted_insertionSort (· ≤ ·) p) (List.sorted_insertionSort (· ≤ ·) s)

/-- Folding dict-update over exactly two configurations is one dict-update. -/
theorem mergeConfigs_pair (c1 c2 : Config) :
    mergeConfigs [c1, c2] = mergeTwo c1 c2 := rfl

/-- Lookup in a dict-update: the overriding configuration wins on the keys it
binds, the overridden one answers the rest. -/
theorem lookupConfig_mergeTwo (c1 c2 : Config) (k : String) :
    lookupConfig (mergeTwo c1 c2) k
      = (lookupConfig c2 k).or (lookupConfig c1 k) := by
  unfold lookupConfig mergeTwo
  rw [List.find?_append]
  by_cases h : hasKey c2 k
  · have hfilter :
        (c1.filter (fun p => !hasKey c2 p.1)).find? (fun p => p.1 == k) = none := by
      rw [List.find?_eq_none]
      intro a ha hak
      have hmem := (List.mem_filter.mp ha).2
      have hk : a.1 = k := by simpa using hak
      rw [hk, h] at hmem
      simp at hmem
    have hsome : ((c2.find? (fun p => p.1 == k)).map (·.2)).isSome := by
      unfold hasKey at h
      rw [List.any_eq_true] at h
      obtain ⟨a, ha, hak⟩ := h
      cases hf : c2.find? (fun p => p.1 == k) with
      | none => rw [List.find?_eq_none] at hf; exact absurd hak (hf a ha)
      | some q => simp
    rw [hfilter, Option.none_or, Option.or_of_isSome hsome]
  · have hc2 : c2.find? (fun p => p.1 == k) = none := by
      rw [List.find?_eq_none]
      intro a ha hak
      have hk : a.1 = k := by simpa using hak
      exact h (by unfold hasKey; rw [List.any_eq_true]; exact ⟨a, ha, by simp [hk]⟩)
    have hfun : (fun a : String × String =>
        decide ((!hasKey c2 a.1) = true ∧ (a.1 == k) = true)) = fun p => p.1 == k := by
      funext a
      by_cases hak : a.1 == k
      · have hk : a.1 = k := by simpa using hak
        simp [hak, hk, h]
      · simp [hak]
    rw [List.find?_filter, hfun, hc2]
    simp

/-! Claim theorems. -/

/-- Claim C1, counterexample: the presented scope list `["a", "a"]` and the
stored scope list `["a"]` are equal as sets (they have the same members),
yet the scope comparison of `ExperimentScopeTokenView.post` fails on them,
so scope-token validation does not succeed exactly on set-equal scope
lists. -/
theorem validate_set_equality_counterexample :
    (∀ x : String, x ∈ (["a", "a"] : List String) ↔ x ∈ (["a"] : List String))
    ∧ validate ["a", "a"] ["a"] = false := by
  refine ⟨fun x => by simp, ?_⟩
  cases hv : validate ["a", "a"] ["a"] with
  | false => rfl
  | true =>
    have hlen := ((validate_eq_true_iff_perm _ _).mp hv).length_eq
    simp at hlen

/-- Claim C1, amended: for every presented scope list and stored scope list,
the scope-token validation succeeds if and only if the two are equal as
multisets — order irrelevant but multiplicity significant (for
duplicate-free scope lists this coincides with set equality); both empty and
non-empty scope collections must match exactly, not merely intersect. -/
theorem validate_iff_multiset_eq (p s : List String) :
    validate p s = true ↔ (p : Multiset String) = (s : Multiset String) := by
  rw [validate_eq_true_iff_perm, Multiset.coe_eq_coe]

/-- Claim C2: a scope-token exchange by a caller holding no grant (a `None`
scope) is denied even when the stored scope is empty, while a caller
presenting an explicit empty-scope grant against an empty stored scope
succeeds (when the experiment is live); absence of a grant is distinguished
from an explicit empty grant only by the separate `user.scope is None`
check. -/
theorem scope_token_requires_explicit_grant
    (getScope : Nat → String → Nat → List String) (e : Experiment)
    (tokens : List (Nat × String)) (freshKey : String)
    (hlive : e.lastStatus ∈ [ExperimentLifeCycle.scheduled,
                             ExperimentLifeCycle.starting,
                             ExperimentLifeCycle.running])
    (hstored : getScope e.userId "experiment" e.id = []) :
    (scopeTokenPost getScope none e tokens freshKey).1 = .forbidden
    ∧ ∃ k, (scopeTokenPost getScope (some []) e tokens freshKey).1 = .ok k := by
  refine ⟨rfl, ?_⟩
  simp only [scopeTokenPost, hstored]
  rw [if_neg (not_not_intro hlive), if_neg (by simp [pySorted])]
  unfold getOrCreateToken
  cases hfind : tokens.find? (fun p => p.1 == e.userId) with
  | some q => exact ⟨q.2, by simp [hfind]⟩
  | none => exact ⟨freshKey, by simp [hfind]⟩

/-- Claim C2, witness at a concrete live experiment with an explicit
empty-scope grant stored and an empty durable-token store. -/
theorem scope_token_requires_explicit_grant_witness :
    (scopeTokenPost emptyGetScope none sampleExperiment [] "k").1 = .forbidden
    ∧ ∃ k, (scopeTokenPost emptyGetScope (some []) sampleExperiment [] "k").1 = .ok k :=
  scope_token_requires_explicit_grant emptyGetScope sampleExperiment [] "k"
    (by decide) rfl

/-- Claim C3: a scope-token exchange targeting an experiment whose current
status is outside the live subset scheduled/starting/running is Forbidden,
whatever scope the caller presents and whatever grant is stored. -/
theorem scope_token_nonlive_forbidden
    (getScope : Nat → String → Nat → List String)
    (userScope : Option (List String)) (e : Experiment)
    (tokens : List (Nat × String)) (freshKey : String)
    (hnotlive : e.lastStatus ∉ [ExperimentLifeCycle.scheduled,
                                ExperimentLifeCycle.starting,
                                ExperimentLifeCycle.running]) :
    (scopeTokenPost getScope userScope e tokens freshKey).1 = .forbidden := by
  cases userScope with
  | none => rfl
  | some presented =>
    simp only [scopeTokenPost]
    rw [if_pos hnotlive]

/-- Claim C3, witness at a concrete stopped experiment whose caller presents
exactly the stored (empty) scope. -/
theorem scope_token_nonlive_forbidden_witness :
    (scopeTokenPost emptyGetScope (some []) sampleStoppedExperiment [] "k").1
      = .forbidden :=
  scope_token_nonlive_forbidden emptyGetScope (some []) sampleStoppedExperiment [] "k"
    (by decide)

/-- Claim C4: a successful scope-token validation returns a durable
credential for the experiment's user with get-or-create semantics: an
existing token is returned and the store left unchanged, otherwise exactly
one fresh token is created for that user; in either case the store ends up
with exactly one token for the user when it had none, and no duplicate is
ever added. -/
theorem scope_token_durable_token_get_or_create
    (getScope : Nat → String → Nat → List String) (p : List String)
    (e : Experiment) (tokens : List (Nat × String)) (freshKey : String)
    (hlive : e.lastStatus ∈ [ExperimentLifeCycle.scheduled,
                             ExperimentLifeCycle.starting,
                             ExperimentLifeCycle.running])
    (hmatch : validate p (getScope e.userId "experiment" e.id) = true) :
    (∃ k, (scopeTokenPost getScope (some p) e tokens freshKey).1 = .ok k)
    ∧ (match tokens.find? (fun q => q.1 == e.userId) with
       | some q => scopeTokenPost getScope (some p) e tokens freshKey = (.ok q.2, tokens)
       | none => scopeTokenPost getScope (some p) e tokens freshKey
           = (.ok freshKey, tokens ++ [(e.userId, freshKey)]))
    ∧ ((scopeTokenPost getScope (some p) e tokens freshKey).2.countP
          (fun q => q.1 == e.userId))
        = max 1 (tokens.countP (fun q => q.1 == e.userId)) := by
  have hne : ¬ (pySorted p ≠ pySorted (getScope e.userId "experiment" e.id)) := by
    unfold validate at hmatch
    exact not_not_intro (by rwa [beq_iff_eq] at hmatch)
  cases hfind : tokens.find? (fun q => q.1 == e.userId) with
  | some q =>
    have hq := List.find?_some hfind
    have hmem := List.mem_of_find?_eq_some hfind
    have hpost : scopeTokenPost getScope (some p) e tokens freshKey = (.ok q.2, tokens) := by
      simp only [scopeTokenPost, getOrCreateToken, hfind]
      rw [if_neg (not_not_intro hlive), if_neg hne]
    refine ⟨⟨q.2, by rw [hpost]⟩, by exact hpost, ?_⟩
    rw [hpost]
    show tokens.countP (fun q => q.1 == e.userId) = _
    have hpos : 0 < tokens.countP (fun q => q.1 == e.userId) :=
      List.countP_pos_iff.mpr ⟨q, hmem, hq⟩
    exact (Nat.max_eq_right hpos).symm
  | none =>
    have hpost : scopeTokenPost getScope (some p) e tokens freshKey
        = (.ok freshKey, tokens ++ [(e.userId, freshKey)]) := by
      simp only [scopeTokenPost, getOrCreateToken, hfind]
      rw [if_neg (not_not_intro hlive), if_neg hne]
    have hzero : tokens.countP (fun q => q.1 == e.userId) = 0 := by
      rw [List.countP_eq_zero]
      rw [List.find?_eq_none] at hfind
      exact hfind
    refine ⟨⟨freshKey, by rw [hpost]⟩, by exact hpost, ?_⟩
    rw [hpost]
    show (tokens ++ [(e.userId, freshKey)]).countP (fun q => q.1 == e.userId) = _
    rw [List.countP_append, hzero]
    simp [List.countP_cons]

/-- Claim C4, witness at a concrete live experiment with a matching empty
scope and an empty durable-token store. -/
theorem scope_token_durable_token_get_or_create_witness :
    (∃ k, (scopeTokenPost emptyGetScope (some []) sampleExperiment [] "k").1 = .ok k)
    ∧ (match ([] : List (Nat × String)).find? (fun q => q.1 == sampleExperiment.userId) with
       | some q => scopeTokenPost emptyGetScope (some []) sampleExperiment [] "k"
           = (.ok q.2, [])
       | none => scopeTokenPost emptyGetScope (some []) sampleExperiment [] "k"
           = (.ok "k", [] ++ [(sampleExperiment.userId, "k")]))
    ∧ ((scopeTokenPost emptyGetScope (some []) sampleExperiment [] "k").2.countP
          (fun q => q.1 == sampleExperiment.userId))
        = max 1 (([] : List (Nat × String)).countP (fun q => q.1 == sampleExperiment.userId)) :=
  scope_token_durable_token_get_or_create emptyGetScope [] sampleExperiment [] "k"
    (by decide) (by rfl)

/-- The action trace of a clone request has one of four shapes: nothing (ttl
rejected), only the audit record (specification rejected), or the audit
record followed by the creation and possibly a ttl store. -/
theorem clonePost_trace_cases (env : SpecEnv) (ev : EventType) (obj : Experiment)
    (req : CloneRequest) (newId : Nat) :
    (clonePost env ev obj req newId).1 = []
    ∨ (clonePost env ev obj req newId).1 = [Action.record ev obj.id]
    ∨ ∃ cfg dec ucr rest,
        (clonePost env ev obj req newId).1
          = Action.record ev obj.id
            :: Action.createExperiment newId cfg dec ucr req.description :: rest
        ∧ (rest = [] ∨ ∃ n, rest = [Action.setTTL newId n]) := by
  cases hres : resolveTTL req.ttl with
  | error e => left; simp [clonePost, hres]
  | ok ttlOpt =>
    cases hcfg : req.config with
    | none =>
      cases ttlOpt with
      | none =>
        right; right
        exact ⟨none, none, req.updateCode.getD false, [],
          by simp [clonePost, hres, hcfg], Or.inl rfl⟩
      | some n =>
        by_cases hn : n = 0
        · right; right
          exact ⟨none, none, req.updateCode.getD false, [],
            by simp [clonePost, hres, hcfg, hn], Or.inl rfl⟩
        · right; right
          exact ⟨none, none, req.updateCode.getD false, [Action.setTTL newId n],
            by simp [clonePost, hres, hcfg, hn], Or.inr ⟨n, rfl⟩⟩
    | some ov =>
      cases hval : validate_experiment_spec_config env [obj.parsedSpec, ov] with
      | error e =>
        right; left; simp [clonePost, hres, hcfg, hval, Except.map]
      | ok s =>
        cases ttlOpt with
        | none =>
          right; right
          exact ⟨some s.parsedData, some s.declarations, req.updateCode.getD false, [],
            by simp [clonePost, hres, hcfg, hval, Except.map], Or.inl rfl⟩
        | some n =>
          by_cases hn : n = 0
          · right; right
            exact ⟨some s.parsedData, some s.declarations, req.updateCode.getD false, [],
              by simp [clonePost, hres, hcfg, hval, hn, Except.map], Or.inl rfl⟩
          · right; right
            exact ⟨some s.parsedData, some s.declarations, req.updateCode.getD false,
              [Action.setTTL newId n],
              by simp [clonePost, hres, hcfg, hval, hn, Except.map], Or.inr ⟨n, rfl⟩⟩

/-- Claim C5: in every clone (restart/resume/copy) request, the triggered
event is only ever recorded against the source experiment, never against the
new one, and whenever the derived experiment is created the event record on
the source occurs strictly earlier in the action trace. -/
theorem clone_event_on_source_before_create
    (env : SpecEnv) (eventType : EventType) (obj : Experiment)
    (req : CloneRequest) (newId : Nat) (hne : newId ≠ obj.id) :
    (∀ t i, Action.record t i ∈ (clonePost env eventType obj req newId).1 → i = obj.id)
    ∧ (∀ t, Action.record t newId ∉ (clonePost env eventType obj req newId).1)
    ∧ (∀ j a, (clonePost env eventType obj req newId).1.get? j = some a →
        a.isCreate = true →
        0 < j ∧ (clonePost env eventType obj req newId).1.get? 0
          = some (Action.record eventType obj.id)) := by
  have hrecords : ∀ t i, Action.record t i ∈ (clonePost env eventType obj req newId).1
      → i = obj.id := by
    obtain h | h | ⟨cfg, dec, ucr, rest, h, hrest⟩ :=
      clonePost_trace_cases env eventType obj req newId
    · intro t i hmem; rw [h] at hmem; simp at hmem
    · intro t i hmem; rw [h] at hmem; simp at hmem; exact hmem.2
    · intro t i hmem
      rw [h] at hmem
      rcases hrest with hr | ⟨n, hr⟩ <;> subst hr <;> simp at hmem <;> exact hmem.2
  refine ⟨hrecords, fun t hmem => hne (hrecords t newId hmem), ?_⟩
  obtain h | h | ⟨cfg, dec, ucr, rest, h, hrest⟩ :=
    clonePost_trace_cases env eventType obj req newId
  · intro j a hj; rw [h] at hj; simp at hj
  · intro j a hj hc
    rw [h] at hj
    match j with
    | 0 =>
      simp at hj
      rw [← hj] at hc
      simp [Action.isCreate] at hc
    | j + 1 => simp at hj
  · intro j a hj hc
    rw [h] at hj
    match j with
    | 0 =>
      simp at hj
      rw [← hj] at hc
      simp [Action.isCreate] at hc
    | j + 1 => exact ⟨Nat.succ_pos j, by rw [h]; rfl⟩

/-- Claim C5, witness: a restart request with an override configuration on a
concrete experiment, where the derived id differs from the source id. -/
theorem clone_event_on_source_before_create_witness :
    (∀ t i, Action.record t i
        ∈ (clonePost sampleSpecEnv .experimentRestartedTriggered sampleExperiment
            ⟨.absent, some [("lr", "0.01")], none, none⟩ 9).1 → i = sampleExperiment.id)
    ∧ (∀ t, Action.record t 9
        ∉ (clonePost sampleSpecEnv .experimentRestartedTriggered sampleExperiment
            ⟨.absent, some [("lr", "0.01")], none, none⟩ 9).1)
    ∧ (∀ j a, (clonePost sampleSpecEnv .experimentRestartedTriggered sampleExperiment
            ⟨.absent, some [("lr", "0.01")], none, none⟩ 9).1.get? j = some a →
        a.isCreate = true →
        0 < j ∧ (clonePost sampleSpecEnv .experimentRestartedTriggered sampleExperiment
            ⟨.absent, some [("lr", "0.01")], none, none⟩ 9).1.get? 0
          = some (Action.record .experimentRestartedTriggered sampleExperiment.id)) :=
  clone_event_on_source_before_create sampleSpecEnv .experimentRestartedTriggered
    sampleExperiment ⟨.absent, some [("lr", "0.01")], none, none⟩ 9 (by decide)

/-- Claim C6: when a clone request supplies an override configuration, the
ordered pair of the source's parsed specification and the override is merged
with later entries overriding earlier keys and put through the specification
validator; on validator success the new experiment is created with exactly
the validated specification, and on validator failure the error surfaces to
the caller and nothing is created — no silent fallback to the source
specification. -/
theorem clone_override_config_validated_merge
    (env : SpecEnv) (ev : EventType) (obj : Experiment) (ov : Config)
    (req : CloneRequest) (newId : Nat) (ttlOpt : Option Int)
    (hcfg : req.config = some ov)
    (httl : resolveTTL req.ttl = .ok ttlOpt) :
    (∀ k, lookupConfig (mergeConfigs [obj.parsedSpec, ov]) k
        = (lookupConfig ov k).or (lookupConfig obj.parsedSpec k))
    ∧ (∀ s, validate_experiment_spec_config env [obj.parsedSpec, ov] = .ok s →
        (clonePost env ev obj req newId).2 = .ok newId
        ∧ Action.createExperiment newId (some s.parsedData) (some s.declarations)
            (req.updateCode.getD false) req.description
            ∈ (clonePost env ev obj req newId).1)
    ∧ (∀ msg, validate_experiment_spec_config env [obj.parsedSpec, ov] = .error msg →
        (clonePost env ev obj req newId).2 = .error (.validationError msg)
        ∧ ∀ a ∈ (clonePost env ev obj req newId).1, a.isCreate = false) := by
  refine ⟨?_, ?_, ?_⟩
  · intro k
    rw [mergeConfigs_pair, lookupConfig_mergeTwo]
  · intro s hs
    constructor
    · cases ttlOpt <;> simp [clonePost, httl, hcfg, hs, Except.map]
    · cases ttlOpt <;> simp [clonePost, httl, hcfg, hs, Except.map]
  · intro msg hmsg
    have htr : clonePost env ev obj req newId
        = ([Action.record ev obj.id], .error (.validationError msg)) := by
      simp [clonePost, httl, hcfg, hmsg, Except.map]
    rw [htr]
    refine ⟨rfl, ?_⟩
    intro a ha
    simp at ha
    rw [ha]
    rfl

/-- Claim C6, witness: a restart request overriding the learning rate of a
concrete experiment; the merged lookup prefers the override and the clone
succeeds. -/
theorem clone_override_config_validated_merge_witness :
    lookupConfig (mergeConfigs [sampleExperiment.parsedSpec, [("lr", "0.01")]]) "lr"
      = (lookupConfig [("lr", "0.01")] "lr").or (lookupConfig sampleExperiment.parsedSpec "lr")
    ∧ (clonePost sampleSpecEnv .experimentRestartedTriggered sampleExperiment
        ⟨.absent, some [("lr", "0.01")], none, none⟩ 9).2 = .ok 9 := by
  have h := clone_override_config_validated_merge sampleSpecEnv
    .experimentRestartedTriggered sampleExperiment [("lr", "0.01")]
    ⟨.absent, some [("lr", "0.01")], none, none⟩ 9 none rfl rfl
  exact ⟨h.1 "lr", (h.2.1 _ rfl).1⟩

/-- Claim C7: a metrics submission whose payload is a list never creates a
synchronous metric row; it enqueues exactly one bulk `set_metrics` task
whose payload carries the target experiment's id and the entire raw list of
records, whatever the single-record serializer would have said. -/
theorem metrics_list_bulk_dispatch (isValidMetric : Config → Bool)
    (experimentId : Nat) (ms : List Config) :
    (metricsCreate isValidMetric experimentId (.list ms)).2 = .ok ()
    ∧ (metricsCreate isValidMetric experimentId (.list ms)).1
        = [Action.sendSetMetrics experimentId ms]
    ∧ (∀ eid m, Action.createMetricRow eid m
        ∉ (metricsCreate isValidMetric experimentId (.list ms)).1) := by
  refine ⟨rfl, rfl, ?_⟩
  intro eid m hmem
  simp [metricsCreate] at hmem

/-- Claim C8: stopping an experiment records one stop-triggered event
against it and dispatches one stop task whose payload holds the resolved
project name and uuid, experiment name and uuid, the group name and uuid
when the experiment belongs to a group and `None` for both otherwise, the
experiment's full specification, and `update_status = True`. -/
theorem stop_post_event_and_command (obj : Experiment) :
    stopPost obj
      = ([Action.record .experimentStoppedTriggered obj.id,
          Action.sendStop
            { projectName := obj.project.uniqueName
              projectUuid := obj.project.uuidHex
              experimentName := obj.uniqueName
              experimentUuid := obj.uuidHex
              experimentGroupName := obj.experimentGroup.map Group.uniqueName
              experimentGroupUuid := obj.experimentGroup.map Group.uuidHex
              specification := obj.config
              updateStatus := true }], 200) := rfl

/-- Claim C9, counterexample: a request combining `independent=true` with a
group filter that is present but empty — non-null, yet falsy for the
handler's truthiness test — is accepted instead of failing with a
`ValidationError`. -/
theorem independent_group_filter_counterexample :
    some "" ≠ (none : Option String)
    ∧ filterQueryset true (some "") sampleProject [] [] = .ok [] :=
  ⟨by simp, rfl⟩

/-- Claim C9, amended: an experiment-list request combining
`independent=true` with a non-null, non-empty `group` filter fails with a
`ValidationError` for every project, group table and queryset. -/
theorem independent_truthy_group_validation_error (g : String)
    (project : Project) (groups : List Group) (qs : List Experiment)
    (hg : g ≠ "") :
    filterQueryset true (some g) project groups qs
      = .error (.validationError
          "You cannot filter for independent experiments and group experiments at the same time.") := by
  have hc : (true && pyTruthyStr (some g)) = true := by simp [pyTruthyStr, hg]
  simp [filterQueryset, hc]

/-- Claim C9 amended, witness at a concrete non-empty group filter. -/
theorem independent_truthy_group_validation_error_witness :
    filterQueryset true (some "3") sampleProject [] []
      = .error (.validationError
          "You cannot filter for independent experiments and group experiments at the same time.") :=
  independent_truthy_group_validation_error "3" sampleProject [] [] (by decide)

/-- Claim C10: a create or clone request whose supplied ttl is falsy (the
integer 0, the empty string, or an absent value) skips ttl validation
entirely — even an unparseable falsy value raises no `ValidationError` —
stores no TTL, and still creates the experiment. -/
theorem falsy_ttl_silently_ignored (ttlRaw : TTLInput) (project : Project)
    (userId newId : Nat) (env : SpecEnv) (ev : EventType) (obj : Experiment)
    (d : Option String) (httl : ttlTruthy ttlRaw = false) :
    resolveTTL ttlRaw = .ok none
    ∧ (performCreate ttlRaw none project [] userId newId).2 = .ok newId
    ∧ (∀ a ∈ (performCreate ttlRaw none project [] userId newId).1, a.isSetTTL = false)
    ∧ Action.createFromSerializer newId userId project.id
        ∈ (performCreate ttlRaw none project [] userId newId).1
    ∧ (clonePost env ev obj ⟨ttlRaw, none, none, d⟩ newId).2 = .ok newId
    ∧ (∀ a ∈ (clonePost env ev obj ⟨ttlRaw, none, none, d⟩ newId).1, a.isSetTTL = false)
    ∧ Action.createExperiment newId none none false d
        ∈ (clonePost env ev obj ⟨ttlRaw, none, none, d⟩ newId).1 := by
  have hres : resolveTTL ttlRaw = .ok none := by simp [resolveTTL, httl]
  have hpc : performCreate ttlRaw none project [] userId newId
      = ([Action.createFromSerializer newId userId project.id,
          Action.record .experimentCreated newId], .ok newId) := by
    simp [performCreate, hres, pyTruthyNat]
  have hcp : clonePost env ev obj ⟨ttlRaw, none, none, d⟩ newId
      = ([Action.record ev obj.id,
          Action.createExperiment newId none none false d], .ok newId) := by
    simp [clonePost, hres]
  refine ⟨hres, by rw [hpc], ?_, by rw [hpc]; simp, by rw [hcp], ?_, by rw [hcp]; simp⟩
  · intro a ha
    rw [hpc] at ha
    simp at ha
    rcases ha with h | h <;> rw [h] <;> rfl
  · intro a ha
    rw [hcp] at ha
    simp at ha
    rcases ha with h | h <;> rw [h] <;> rfl

/-- Claim C10, witness: a falsy and unparseable ttl (the empty string) on
both the direct-create path and the clone path of a concrete experiment. -/
theorem falsy_ttl_silently_ignored_witness :
    resolveTTL (.str "") = .ok none
    ∧ (performCreate (.str "") none sampleProject [] 7 8).2 = .ok 8
    ∧ Action.createFromSerializer 8 7 sampleProject.id
        ∈ (performCreate (.str "") none sampleProject [] 7 8).1
    ∧ (clonePost sampleSpecEnv .experimentCreated sampleExperiment
        ⟨.str "", none, none, none⟩ 8).2 = .ok 8
    ∧ Action.createExperiment 8 none none false none
        ∈ (clonePost sampleSpecEnv .experimentCreated sampleExperiment
            ⟨.str "", none, none, none⟩ 8).1 := by
  have h := falsy_ttl_silently_ignored (.str "") sampleProject 7 8 sampleSpecEnv
    .experimentCreated sampleExperiment none (by rfl)
  exact ⟨h.1, h.2.1, h.2.2.2.1, h.2.2.2.2.1, h.2.2.2.2.2.2⟩

end Polyaxon
